import Mathlib

/-!
Shallow embedding of the turn-orchestration core of the Telegram assistant bot
(`bot.py` and `core/ui/telegram_renderer.py`).

The external agent capability, the summarization LLM call and the Telegram
transport are collaborators outside the core (spec section 6); the embedding
abstracts them as parameters: the drain of agent events is summarised by its
outcome (`DrainOutcome`), and the summarization call by its returned value
(`Option String`, `none` standing for an exception or an empty response, as
`summarize_history` in `bot.py` maps both to `None`).
-/

/-- A chat message as stored in `user_sessions` (`bot.py`): a dict with a
`role` string and a `content` string. -/
structure Message where
  role : String
  content : String
deriving DecidableEq, Repr

/-- `count_tokens` (`bot.py` lines 87-89): `len(str(text)) // 4`, and 0 for
empty text (which coincides with the division). -/
def count_tokens (text : String) : Nat := text.length / 4

/-- Token estimate of a history: `sum(count_tokens(m.get("content", "")) for m in hist)`
(`bot.py` line 374). -/
def historyTokens (hist : List Message) : Nat :=
  (hist.map (fun m => count_tokens m.content)).sum

/-- The summary message built at `bot.py` line 390. -/
def summaryMessage (s : String) : Message :=
  { role := "system", content := "[Previous Conversation Summary]: " ++ s }

/-- The in-place history compaction of `process_agent_loop` (`bot.py` lines
371-396).  `summary` is the value returned by `summarize_history` when it is
called (`none` models a `None` return, i.e. an exception or empty LLM reply;
the replacement is also skipped when the returned string is empty, mirroring
the truthiness test `if summary:` at line 388).  Python `hist[:-6]` /
`hist[-6:]` split into dropped head and kept tail of 6. -/
def compactHistory (hist : List Message) (summary : Option String) : List Message :=
  if (15 < hist.length ∨ 4000 < historyTokens hist) ∧ 6 < hist.length then
    match summary with
    | some s => if s = "" then hist else summaryMessage s :: hist.drop (hist.length - 6)
    | none => hist
  else
    hist

/-- Per-conversation shared state: the committed history (`user_sessions`)
and the usage counter (`user_usage`), both keyed by chat id in `bot.py`. -/
structure ConvState where
  history : List Message
  usage : Nat
deriving DecidableEq, Repr

/-- The quota refusal text sent at `bot.py` line 364 (the leading characters
are the literal, mojibake-encoded emoji present in the source). -/
def quotaMessage : String :=
  "‚ö†Ô∏è Session usage quota exceeded (50,000 tokens). Please use /clear to reset."

/-- Outcome of draining the agent event stream inside the `try` block of
`process_agent_loop` (`bot.py` lines 423-459): the loop ends normally with
the last `final` content (`""` if no `final` event arrived), is cancelled,
or raises an in-band error. -/
inductive DrainOutcome where
  | success (finalText : String)
  | cancelled
  | error (msg : String)
deriving DecidableEq, Repr

/-- The error final text built at `bot.py` line 457. -/
def agentLoopError (msg : String) : String := "Error in agent loop: " ++ msg

/-- Split a character list into chunks of 4096, mirroring
`[remaining[i:i+4096] for i in range(0, len(remaining), 4096)]`
(`bot.py` line 467). -/
def chunkList (l : List Char) : List (List Char) :=
  if h : l = [] then []
  else l.take 4096 :: chunkList (l.drop 4096)
termination_by l.length
decreasing_by
  simp only [List.length_drop]
  have : 0 < l.length := List.length_pos.mpr h
  omega

/-- Overflow follow-up messages (`bot.py` lines 464-472): when the final text
exceeds 4000 characters, everything from character 3500 on is re-sent in
chunks of 4096. -/
def overflowChunks (t : String) : List String :=
  if 4000 < t.length then (chunkList (t.data.drop 3500)).map (fun l => String.mk l) else []

/-- One run of `process_agent_loop` (`bot.py` lines 358-488) as a function of
the pre-turn shared state, the user input, the summarizer result (used only
when compaction triggers) and the drain outcome.  Returns the post-turn
shared state together with the list of extra messages sent by
`context.bot.send_message` (quota refusal, "Stopped.", the in-band error
text, overflow chunks; the temporary "Optimizing memory" status is sent and
deleted again and is not modelled).  The committed history on success/error
is built from `session_history_start` (line 398), i.e. the post-compaction
snapshot, plus the two new entries (lines 482-484); usage grows by
`count_tokens(input) + count_tokens(final) + 500` (lines 475-479); both
updates are skipped when the final text is empty (line 462) and on
cancellation (lines 452-455). -/
def process_agent_loop (st : ConvState) (userInput : String) (summary : Option String)
    (outcome : DrainOutcome) : ConvState × List String :=
  if 50000 < st.usage then
    (st, [quotaMessage])
  else
    let hist := compactHistory st.history summary
    match outcome with
    | .cancelled => ({ history := hist, usage := st.usage }, ["Stopped."])
    | .success t =>
      if t = "" then
        ({ history := hist, usage := st.usage }, [])
      else
        ({ history := hist ++ [{ role := "user", content := userInput },
                               { role := "assistant", content := t }],
           usage := st.usage + (count_tokens userInput + count_tokens t + 500) },
         overflowChunks t)
    | .error m =>
      ({ history := hist ++ [{ role := "user", content := userInput },
                             { role := "assistant", content := agentLoopError m }],
         usage := st.usage + (count_tokens userInput + count_tokens (agentLoopError m) + 500) },
       agentLoopError m :: overflowChunks (agentLoopError m))

/-!
Cancellation model for `process_agent_loop`.

`asyncio` is cooperatively scheduled: `handle_message` (`bot.py` lines
169-188) can only run, and hence call `task.cancel()` on the previous task
of the same chat, while that task is suspended at an `await`; the
`CancelledError` is then raised at that very suspension point when the task
resumes.  `CancelDelivery` enumerates the suspension points of
`process_agent_loop` at which the signal can land once a final text exists,
and `finalizeUnderCancel` gives the shared state (history, usage) the
superseded task leaves behind, starting from the post-compaction state `st`:

* `duringDrain` — any `await` inside the `try` block (lines 423-451): the
  error is caught at line 452, "Stopped." is sent and the function returns
  before any finalize mutation;
* `atOverflowMarkdownSend` — the `await` at line 470, reachable when the
  final text is longer than 4000; it sits under the bare `except:` of line
  471, which catches `CancelledError` too, so the task keeps running and
  completes the whole finalize (usage update and history commit);
* `atOverflowPlainSend` — the fallback `await` at line 472; a
  `CancelledError` raised there propagates out of `process_agent_loop`
  before the usage update at line 479, so nothing is mutated;
* `atCommitLockAcquire` — acquiring `session_lock` at line 486, a real
  suspension point when the (global) lock is held by another task; the
  usage update at line 479 has already happened, the history commit at
  line 487 never runs.
-/

/-- Suspension points of `process_agent_loop` at which a cancellation signal
can be delivered (see the module comment above). -/
inductive CancelDelivery where
  | duringDrain
  | atOverflowMarkdownSend
  | atOverflowPlainSend
  | atCommitLockAcquire
deriving DecidableEq, Repr

/-- Which delivery points are reachable for a given final text and lock
contention: the overflow sends exist only when the final text is longer
than 4000 characters, and blocking on `session_lock` requires the lock
to be contended; the finalize-internal points also require a non-empty
final text (line 462). -/
def deliveryReachable (finalText : String) (lockContended : Bool) : CancelDelivery → Prop
  | .duringDrain => True
  | .atOverflowMarkdownSend => 4000 < finalText.length
  | .atOverflowPlainSend => 4000 < finalText.length
  | .atCommitLockAcquire => lockContended = true ∧ finalText ≠ ""

/-- Shared state left behind by a superseded task when the cancellation
signal is delivered at point `d`, starting from the post-compaction state
`st` with final text `finalText` (see the module comment above for the
line-by-line justification of each branch). -/
def finalizeUnderCancel (st : ConvState) (userInput finalText : String)
    (d : CancelDelivery) : ConvState :=
  match d with
  | .duringDrain => st
  | .atOverflowMarkdownSend =>
      { history := st.history ++ [{ role := "user", content := userInput },
                                  { role := "assistant", content := finalText }],
        usage := st.usage + (count_tokens userInput + count_tokens finalText + 500) }
  | .atOverflowPlainSend => st
  | .atCommitLockAcquire =>
      { history := st.history,
        usage := st.usage + (count_tokens userInput + count_tokens finalText + 500) }

/-!
Renderer model (`core/ui/telegram_renderer.py`).

`TelegramRenderer.update` mutates `self.buffer`, a list of typed entries;
the throttled `render` calls only publish text and never change the buffer,
so the buffer evolution is the pure fold below.
-/

/-- An entry of `TelegramRenderer.buffer`: a dict with a `type` tag and a
payload (`tool`/`args` for tool use, a result string for observations, the
accumulated content for the final stream). -/
inductive BufEntry where
  | tool_use (tool : String) (args : String)
  | observation (result : String)
  | final_stream (content : String)
deriving DecidableEq, Repr

/-- A renderer event, i.e. one `update(status_type, content)` call as issued
by `process_agent_loop` (`bot.py` lines 430-450). -/
inductive REvent where
  | thinking
  | tool_use (tool : String) (args : String)
  | observation (result : String)
  | final_stream (delta : String)
  | final (content : String)
deriving DecidableEq, Repr

/-- Buffer transition of `TelegramRenderer.update`
(`core/ui/telegram_renderer.py` lines 33-62): a `final_stream` delta is
appended into the last entry when that entry is a `final_stream`, else a new
entry is appended; a `final` event overwrites the last entry's content when
that entry is a `final_stream`, else appends; `tool_use` and `observation`
always append; `thinking` is ignored. -/
def rupdate (buf : List BufEntry) (e : REvent) : List BufEntry :=
  match e with
  | .final_stream c =>
      match buf.getLast? with
      | some (.final_stream prev) => buf.dropLast ++ [.final_stream (prev ++ c)]
      | _ => buf ++ [.final_stream c]
  | .final c =>
      match buf.getLast? with
      | some (.final_stream _) => buf.dropLast ++ [.final_stream c]
      | _ => buf ++ [.final_stream c]
  | .tool_use t a => buf ++ [.tool_use t a]
  | .observation r => buf ++ [.observation r]
  | .thinking => buf

/-- Run a sequence of renderer events from a starting buffer. -/
def runEvents (events : List REvent) (buf : List BufEntry) : List BufEntry :=
  events.foldl rupdate buf

/-- Whether a buffer entry is a `final_stream` entry. -/
def isStreamEntry : BufEntry → Bool
  | .final_stream _ => true
  | _ => false

/-- Number of `final_stream` entries in the buffer. -/
def countStreams (buf : List BufEntry) : Nat := (buf.filter isStreamEntry).length

/-- Whether a renderer event touches the stream entry (`final_stream` or
terminal `final`). -/
def isStreamEvent : REvent → Bool
  | .final_stream _ => true
  | .final _ => true
  | _ => false

/-- The stream content picked for display by `_format_text`
(`core/ui/telegram_renderer.py` lines 128-131): the loop keeps the content
of the LAST `final_stream` entry, starting from `""`. -/
def streamContent (buf : List BufEntry) : String :=
  buf.foldl (fun acc e => match e with | .final_stream c => c | _ => acc) ""

/-!
Conversation-level operations, for the frame conditions on the usage
counter.
-/

/-- The operations of `bot.py` that touch a conversation's shared state:
`/start` and `/clear` reset the history (lines 113-130), `/stop` only
cancels the task (lines 133-143), the media handlers append a file notice
to the history (lines 203-212 and analogues), and a text message runs
`process_agent_loop`. -/
inductive Op where
  | start
  | clear_memory
  | stop_command
  | fileUpload (notice : String)
  | turn (userInput : String) (summary : Option String) (outcome : DrainOutcome)

/-- Effect of each operation on the conversation's shared state. -/
def applyOp (op : Op) (st : ConvState) : ConvState :=
  match op with
  | .start => { history := [], usage := st.usage }
  | .clear_memory => { history := [], usage := st.usage }
  | .stop_command => st
  | .fileUpload notice => { history := st.history ++ [{ role := "user", content := notice }],
                            usage := st.usage }
  | .turn i s o => (process_agent_loop st i s o).1

/-- C1: a turn that completes successfully with a non-empty final text
commits exactly the pre-turn snapshot (the post-compaction history) plus the
user entry and the assistant entry, and increases the usage counter by
exactly `len(input) // 4 + len(final) // 4 + 500`. -/
theorem C1_success_commits (st : ConvState) (userInput t : String) (summary : Option String)
    (hq : st.usage ≤ 50000) (ht : t ≠ "") :
    (process_agent_loop st userInput summary (.success t)).1.history
        = compactHistory st.history summary
          ++ [{ role := "user", content := userInput }, { role := "assistant", content := t }]
    ∧ (process_agent_loop st userInput summary (.success t)).1.usage
        = st.usage + (userInput.length / 4 + t.length / 4 + 500) := by
  have hq' : ¬ 50000 < st.usage := Nat.not_lt.mpr hq
  simp [process_agent_loop, hq', ht, count_tokens]

/-- Witness for C1: the spec's end-to-end scenario — empty history, input
"hi", final text "It is 12:00" — commits exactly the two entries and adds
`0 + 2 + 500` usage. -/
theorem C1_success_commits_witness :
    (process_agent_loop ⟨[], 0⟩ "hi" none (.success "It is 12:00")).1.history
        = [{ role := "user", content := "hi" }, { role := "assistant", content := "It is 12:00" }]
    ∧ (process_agent_loop ⟨[], 0⟩ "hi" none (.success "It is 12:00")).1.usage
        = 0 + (0 + 2 + 500) := by
  have h := C1_success_commits ⟨[], 0⟩ "hi" "It is 12:00" none (by decide) (by decide)
  exact ⟨h.1.trans (by decide), h.2.trans (by decide)⟩

/-- C3 (amended): when cancellation is observed while draining agent events,
no finalize commit and no usage update happen and "Stopped." is surfaced;
however the stored history equals the post-compaction history, which may
already differ from the pre-turn history because compaction persists its
replacement before the drain begins. -/
theorem C3_cancel_skips_finalize (st : ConvState) (userInput : String) (summary : Option String)
    (hq : st.usage ≤ 50000) :
    (process_agent_loop st userInput summary .cancelled).1.usage = st.usage
    ∧ (process_agent_loop st userInput summary .cancelled).1.history
        = compactHistory st.history summary
    ∧ (process_agent_loop st userInput summary .cancelled).2 = ["Stopped."] := by
  have hq' : ¬ 50000 < st.usage := Nat.not_lt.mpr hq
  simp [process_agent_loop, hq']

/-- Witness for C3 (amended): a cancelled turn on an empty history leaves
usage and history untouched and surfaces "Stopped.". -/
theorem C3_cancel_skips_finalize_witness :
    (process_agent_loop ⟨[], 0⟩ "hi" none .cancelled).1.usage = 0
    ∧ (process_agent_loop ⟨[], 0⟩ "hi" none .cancelled).1.history = compactHistory [] none
    ∧ (process_agent_loop ⟨[], 0⟩ "hi" none .cancelled).2 = ["Stopped."] :=
  C3_cancel_skips_finalize ⟨[], 0⟩ "hi" none (by decide)

/-- Counterexample to C3 as stated: on a 16-message history, compaction
triggers and persists a 7-message replacement before the drain begins, so a
turn cancelled while draining does NOT leave the stored history identical
to the history loaded before the turn (it drops from 16 to 7 messages),
even though usage is unchanged and "Stopped." is surfaced. -/
theorem C3_counterexample :
    (process_agent_loop ⟨List.replicate 16 { role := "user", content := "m" }, 0⟩ "x"
        (some "S") .cancelled).1.history
      ≠ List.replicate 16 { role := "user", content := "m" }
    ∧ (process_agent_loop ⟨List.replicate 16 { role := "user", content := "m" }, 0⟩ "x"
        (some "S") .cancelled).1.usage = 0
    ∧ (process_agent_loop ⟨List.replicate 16 { role := "user", content := "m" }, 0⟩ "x"
        (some "S") .cancelled).2 = ["Stopped."] := by
  decide

/-- Counterexample to C4 as stated: at a usage of exactly 50000 the turn is
NOT refused — the check at `bot.py` line 363 is strict (`> 50000`) — the
agent runs, no quota message is sent, and the turn is charged (usage
changes). -/
theorem C4_counterexample :
    (process_agent_loop ⟨[], 50000⟩ "hi" none (.success "okay")).1.usage ≠ 50000
    ∧ (process_agent_loop ⟨[], 50000⟩ "hi" none (.success "okay")).2 = [] := by
  decide

/-- C4 (amended): a turn is refused with the fixed quota message exactly
when the usage counter is STRICTLY above 50000; the refusal returns the
state unchanged with the quota message as the only output, while at exactly
50000 the turn is admitted and charged. -/
theorem C4_strict_quota (st : ConvState) (userInput t : String) (summary : Option String)
    (outcome : DrainOutcome) :
    (50000 < st.usage → process_agent_loop st userInput summary outcome = (st, [quotaMessage]))
    ∧ (st.usage = 50000 → t ≠ "" →
        (process_agent_loop st userInput summary (.success t)).1.usage
          = st.usage + (count_tokens userInput + count_tokens t + 500)) := by
  constructor
  · intro h
    simp [process_agent_loop, h]
  · intro h ht
    have h50 : ¬ 50000 < st.usage := by omega
    simp [process_agent_loop, h50, ht]

/-- Witness for C4 (amended): usage 50001 is refused and left unchanged;
usage 50000 is admitted and charged. -/
theorem C4_strict_quota_witness :
    process_agent_loop ⟨[], 50001⟩ "hi" none (.success "okay") = (⟨[], 50001⟩, [quotaMessage])
    ∧ (process_agent_loop ⟨[], 50000⟩ "hi" none (.success "okay")).1.usage
        = 50000 + (count_tokens "hi" + count_tokens "okay" + 500) := by
  refine ⟨(C4_strict_quota ⟨[], 50001⟩ "hi" "okay" none (.success "okay")).1 (by decide), ?_⟩
  exact (C4_strict_quota ⟨[], 50000⟩ "hi" "okay" none (.success "okay")).2 rfl (by decide)

/-- C5: an in-band error while draining agent events produces the final text
"Error in agent loop: " followed by the message, surfaces it exactly once,
and finalize bookkeeping still runs — the error text is committed as the
assistant entry and the turn is charged.  (The length bound keeps the
overflow re-send out of the picture, as for any realistic error message.) -/
theorem C5_error_finalize (st : ConvState) (userInput m : String) (summary : Option String)
    (hq : st.usage ≤ 50000) (hlen : (agentLoopError m).length ≤ 4000) :
    (process_agent_loop st userInput summary (.error m)).1.history
        = compactHistory st.history summary
          ++ [{ role := "user", content := userInput },
              { role := "assistant", content := agentLoopError m }]
    ∧ (process_agent_loop st userInput summary (.error m)).1.usage
        = st.usage + (count_tokens userInput + count_tokens (agentLoopError m) + 500)
    ∧ (process_agent_loop st userInput summary (.error m)).2 = [agentLoopError m] := by
  have hq' : ¬ 50000 < st.usage := Nat.not_lt.mpr hq
  have hlen' : ¬ 4000 < (agentLoopError m).length := Nat.not_lt.mpr hlen
  simp [process_agent_loop, hq', overflowChunks, hlen']

/-- Witness for C5: a failing drain with message "boom" commits
`Error in agent loop: boom` as the assistant entry, charges the turn and
surfaces the text once. -/
theorem C5_error_finalize_witness :
    (process_agent_loop ⟨[], 0⟩ "hi" none (.error "boom")).1.history
        = compactHistory [] none
          ++ [{ role := "user", content := "hi" },
              { role := "assistant", content := agentLoopError "boom" }]
    ∧ (process_agent_loop ⟨[], 0⟩ "hi" none (.error "boom")).1.usage
        = 0 + (count_tokens "hi" + count_tokens (agentLoopError "boom") + 500)
    ∧ (process_agent_loop ⟨[], 0⟩ "hi" none (.error "boom")).2 = [agentLoopError "boom"] :=
  C5_error_finalize ⟨[], 0⟩ "hi" "boom" none (by decide) (by decide)

/-- C6: compaction runs exactly when (length > 15 OR token estimate > 4000)
AND length > 6, is a no-op otherwise (in particular on histories of 5 or 6
messages), and on success replaces the history by one summary system message
followed by the last 6 original messages, for a length of exactly 7. -/
theorem C6_compaction_policy (hist : List Message) (summary : Option String) :
    (¬ ((15 < hist.length ∨ 4000 < historyTokens hist) ∧ 6 < hist.length) →
        compactHistory hist summary = hist)
    ∧ (hist.length = 5 ∨ hist.length = 6 → compactHistory hist summary = hist)
    ∧ (∀ s, summary = some s → s ≠ "" →
        ((15 < hist.length ∨ 4000 < historyTokens hist) ∧ 6 < hist.length) →
        compactHistory hist summary = summaryMessage s :: hist.drop (hist.length - 6)
          ∧ (compactHistory hist summary).length = 7) := by
  refine ⟨?_, ?_, ?_⟩
  · intro h
    simp [compactHistory, h]
  · intro h
    have hn : ¬ ((15 < hist.length ∨ 4000 < historyTokens hist) ∧ 6 < hist.length) := by
      rintro ⟨-, h6⟩
      rcases h with h | h <;> omega
    simp [compactHistory, hn]
  · rintro s rfl hne htrig
    refine ⟨by simp [compactHistory, htrig, hne], ?_⟩
    simp only [compactHistory, if_pos htrig, if_neg hne, List.length_cons, List.length_drop]
    omega

/-- A short user message used as concrete test data. -/
def userM : Message := { role := "user", content := "m" }

/-- Witness for C6: a 16-message history with a successful summary "S" is
compacted to the summary message plus the last 6 messages (length 7), while
a 6-message history is left untouched. -/
theorem C6_compaction_policy_witness :
    compactHistory (List.replicate 16 userM) (some "S")
        = summaryMessage "S"
          :: (List.replicate 16 userM).drop ((List.replicate 16 userM).length - 6)
    ∧ (compactHistory (List.replicate 16 userM) (some "S")).length = 7
    ∧ compactHistory (List.replicate 6 userM) (some "S") = List.replicate 6 userM := by
  have h1 := (C6_compaction_policy (List.replicate 16 userM)
      (some "S")).2.2 "S" rfl (by decide) (by decide)
  have h2 := (C6_compaction_policy (List.replicate 6 userM)
      (some "S")).2.1 (Or.inr (by decide))
  exact ⟨h1.1, h1.2, h2⟩

/-- C7: when the summarization call fails (modelled by `none`, as
`summarize_history` catches every exception and maps empty replies to
`None`) or returns an empty string, compaction leaves the history completely
unchanged; `compactHistory` is a total function, so compaction never raises
to its caller. -/
theorem C7_summary_failure_no_change (hist : List Message) :
    compactHistory hist none = hist ∧ compactHistory hist (some "") = hist := by
  constructor
  · unfold compactHistory
    split <;> rfl
  · unfold compactHistory
    split <;> simp

/-- The oversized final text used to exhibit the cancellation race: 4001
characters, above the 4000 overflow threshold. -/
def bigFinalText : String := String.mk (List.replicate 4001 'a')

/-- C2 fails on the code: there is no "still current" check anywhere in the
finalize step, and there are reachable interleavings in which the superseded
task, although cancelled, still mutates the shared state.  If the
cancellation signal is delivered at the overflow Markdown send
(`bot.py` line 470) the bare `except:` at line 471 swallows the
`CancelledError` and the task commits BOTH the history and the usage; if it
is delivered while acquiring the contended `session_lock` (line 486) the
usage has already been charged at line 479 while the history is never
committed (a partial mutation). -/
theorem C2_superseded_task_mutates :
    deliveryReachable bigFinalText false CancelDelivery.atOverflowMarkdownSend
    ∧ finalizeUnderCancel ⟨[], 0⟩ "hi" bigFinalText CancelDelivery.atOverflowMarkdownSend
        = ⟨[{ role := "user", content := "hi" },
            { role := "assistant", content := bigFinalText }], 1500⟩
    ∧ deliveryReachable bigFinalText true CancelDelivery.atCommitLockAcquire
    ∧ finalizeUnderCancel ⟨[], 0⟩ "hi" bigFinalText CancelDelivery.atCommitLockAcquire
        = ⟨[], 1500⟩ := by
  have hlen : bigFinalText.length = 4001 := List.length_replicate 4001 'a'
  have hcount : count_tokens bigFinalText = 1000 := by rw [count_tokens, hlen]
  have hhi : count_tokens "hi" = 0 := rfl
  refine ⟨?_, ?_, ⟨rfl, ?_⟩, ?_⟩
  · show 4000 < bigFinalText.length
    omega
  · simp [finalizeUnderCancel, hcount, hhi]
  · intro h
    rw [h] at hlen
    exact absurd hlen (by decide)
  · simp [finalizeUnderCancel, hcount, hhi]

/-- Buffer with `final_stream` entries only at the end: either no stream
entry at all, or exactly one and it is the last entry.  This is the shape
`rupdate` actually preserves under stream events. -/
def streamsAtEnd (buf : List BufEntry) : Prop :=
  countStreams buf = 0
    ∨ ∃ rest s, buf = rest ++ [BufEntry.final_stream s] ∧ countStreams rest = 0

theorem countStreams_append (a b : List BufEntry) :
    countStreams (a ++ b) = countStreams a + countStreams b := by
  simp [countStreams, List.filter_append]

theorem streamsAtEnd_le_one (buf : List BufEntry) (h : streamsAtEnd buf) :
    countStreams buf ≤ 1 := by
  rcases h with h | ⟨rest, s, rfl, hr⟩
  · omega
  · rw [countStreams_append, hr]
    exact Nat.le_refl 1

theorem getLast?_not_stream (buf : List BufEntry) (h : countStreams buf = 0) (s : String) :
    buf.getLast? ≠ some (BufEntry.final_stream s) := by
  rcases List.eq_nil_or_concat buf with rfl | ⟨l, a, rfl⟩
  · simp
  · rw [List.concat_eq_append] at h ⊢
    rw [List.getLast?_concat]
    intro hs
    obtain rfl : a = BufEntry.final_stream s := by injection hs
    rw [countStreams_append] at h
    have h1 : countStreams [BufEntry.final_stream s] = 1 := rfl
    omega

theorem rupdate_stream_preserves (buf : List BufEntry) (e : REvent)
    (he : isStreamEvent e = true) (h : streamsAtEnd buf) :
    streamsAtEnd (rupdate buf e) := by
  rcases h with h0 | ⟨rest, s, rfl, hr⟩
  · cases e with
    | thinking => simp [isStreamEvent] at he
    | tool_use t a => simp [isStreamEvent] at he
    | observation r => simp [isStreamEvent] at he
    | final_stream c =>
      have : rupdate buf (.final_stream c) = buf ++ [.final_stream c] := by
        unfold rupdate
        cases hb : buf.getLast? with
        | none => rfl
        | some x =>
          cases x with
          | final_stream p => exact absurd hb (getLast?_not_stream buf h0 p)
          | tool_use t a => rfl
          | observation r => rfl
      exact Or.inr ⟨buf, c, this, h0⟩
    | final c =>
      have : rupdate buf (.final c) = buf ++ [.final_stream c] := by
        unfold rupdate
        cases hb : buf.getLast? with
        | none => rfl
        | some x =>
          cases x with
          | final_stream p => exact absurd hb (getLast?_not_stream buf h0 p)
          | tool_use t a => rfl
          | observation r => rfl
      exact Or.inr ⟨buf, c, this, h0⟩
  · cases e with
    | thinking => simp [isStreamEvent] at he
    | tool_use t a => simp [isStreamEvent] at he
    | observation r => simp [isStreamEvent] at he
    | final_stream c =>
      refine Or.inr ⟨rest, s ++ c, ?_, hr⟩
      unfold rupdate
      rw [List.getLast?_concat, List.dropLast_concat]
    | final c =>
      refine Or.inr ⟨rest, c, ?_, hr⟩
      unfold rupdate
      rw [List.getLast?_concat, List.dropLast_concat]

theorem runEvents_stream_preserves (events : List REvent)
    (he : ∀ e ∈ events, isStreamEvent e = true) (buf : List BufEntry)
    (h : streamsAtEnd buf) : streamsAtEnd (runEvents events buf) := by
  induction events generalizing buf with
  | nil => exact h
  | cons e es ih =>
    exact ih (fun x hx => he x (List.mem_cons_of_mem _ hx))
      (rupdate buf e)
      (rupdate_stream_preserves buf e (he e (List.mem_cons_self ..)) h)

theorem runEvents_nonstream (events : List REvent) (buf : List BufEntry)
    (h : ∀ e ∈ events, isStreamEvent e = false) :
    countStreams (runEvents events buf) = countStreams buf := by
  induction events generalizing buf with
  | nil => rfl
  | cons e es ih =>
    have he := h e (List.mem_cons_self ..)
    have hes : ∀ x ∈ es, isStreamEvent x = false :=
      fun x hx => h x (List.mem_cons_of_mem _ hx)
    show countStreams (runEvents es (rupdate buf e)) = countStreams buf
    rw [ih _ hes]
    cases e with
    | thinking => rfl
    | tool_use t a => simp [rupdate, countStreams_append, countStreams, isStreamEntry]
    | observation r => simp [rupdate, countStreams_append, countStreams, isStreamEntry]
    | final_stream c => simp [isStreamEvent] at he
    | final c => simp [isStreamEvent] at he

/-- Counterexample to C8 as stated: a `final_stream` delta, then a
`tool_use`, then another `final_stream` delta leaves TWO `final_stream`
entries in the buffer — `update` only merges into the buffer's LAST entry
(`telegram_renderer.py` line 35), so an intervening non-stream entry makes
it open a second stream entry instead of merging. -/
theorem C8_counterexample :
    countStreams (runEvents [.final_stream "a", .tool_use "t" "x", .final_stream "b"] []) = 2 := by
  decide

/-- C8 (amended): the renderer merges a `final_stream` delta (and lets a
terminal `final` overwrite) only when the LAST buffer entry is a
`final_stream`; consequently the buffer holds at most one `final_stream`
entry whenever all `final_stream`/`final` events arrive after all
`tool_use`/`observation` events, but an intervening `tool_use` or
`observation` after a stream delta causes a second stream entry. -/
theorem C8_single_stream_entry (pre post : List REvent)
    (hpre : ∀ e ∈ pre, isStreamEvent e = false)
    (hpost : ∀ e ∈ post, isStreamEvent e = true) :
    countStreams (runEvents (pre ++ post) []) ≤ 1 := by
  have h0 : countStreams (runEvents pre []) = 0 := by
    rw [runEvents_nonstream pre [] hpre]
    rfl
  have hsplit : runEvents (pre ++ post) [] = runEvents post (runEvents pre []) := by
    simp [runEvents, List.foldl_append]
  rw [hsplit]
  exact streamsAtEnd_le_one _
    (runEvents_stream_preserves post hpost (runEvents pre []) (Or.inl h0))

/-- Witness for C8 (amended): a tool call followed by a stream delta and the
terminal final event leaves a single `final_stream` entry. -/
theorem C8_single_stream_entry_witness :
    countStreams (runEvents ([.tool_use "t" "x"] ++ [.final_stream "a", .final "b"]) []) ≤ 1 :=
  C8_single_stream_entry [.tool_use "t" "x"] [.final_stream "a", .final "b"]
    (by decide) (by decide)

theorem runEvents_fs_fold (ds : List String) (s : String) :
    runEvents (ds.map REvent.final_stream) [BufEntry.final_stream s]
      = [BufEntry.final_stream (ds.foldl (fun a b => a ++ b) s)] := by
  induction ds generalizing s with
  | nil => rfl
  | cons d ds ih =>
    show runEvents (ds.map REvent.final_stream)
        (rupdate [BufEntry.final_stream s] (REvent.final_stream d)) = _
    rw [show rupdate [BufEntry.final_stream s] (REvent.final_stream d)
        = [BufEntry.final_stream (s ++ d)] from rfl]
    exact ih (s ++ d)

/-- C9: consecutive `final_stream` deltas concatenate in order into the
single stream entry, and a subsequent terminal `final` event replaces the
stream content wholesale: "Hello" then " world" yield "Hello world", and a
following final "Goodbye" displays exactly "Goodbye". -/
theorem C9_merge_then_overwrite (d c : String) (ds : List String) :
    runEvents ((d :: ds).map REvent.final_stream) []
        = [BufEntry.final_stream (ds.foldl (fun a b => a ++ b) d)]
    ∧ runEvents ((d :: ds).map REvent.final_stream ++ [REvent.final c]) []
        = [BufEntry.final_stream c]
    ∧ runEvents [.final_stream "Hello", .final_stream " world"] []
        = [BufEntry.final_stream "Hello world"]
    ∧ streamContent
        (runEvents [.final_stream "Hello", .final_stream " world", .final "Goodbye"] [])
        = "Goodbye" := by
  have h1 : runEvents ((d :: ds).map REvent.final_stream) []
      = [BufEntry.final_stream (ds.foldl (fun a b => a ++ b) d)] := by
    show runEvents (ds.map REvent.final_stream) (rupdate [] (REvent.final_stream d)) = _
    rw [show rupdate [] (REvent.final_stream d) = [BufEntry.final_stream d] from rfl]
    exact runEvents_fs_fold ds d
  refine ⟨h1, ?_, by decide, by decide⟩
  have hsplit : runEvents ((d :: ds).map REvent.final_stream ++ [REvent.final c]) []
      = rupdate (runEvents ((d :: ds).map REvent.final_stream) []) (REvent.final c) := by
    simp [runEvents, List.foldl_append]
  rw [hsplit, h1]
  rfl

/-- C10: clearing a conversation resets its history to empty but leaves the
usage counter unchanged; no operation of the program ever decreases the
usage counter; hence a conversation refused for exceeding the quota is
still refused, with the same fixed message and no state change, after its
history is cleared. -/
theorem C10_clear_keeps_quota (st : ConvState) (op : Op) :
    (applyOp Op.clear_memory st).history = []
    ∧ (applyOp Op.clear_memory st).usage = st.usage
    ∧ st.usage ≤ (applyOp op st).usage
    ∧ (50000 < st.usage → ∀ userInput summary outcome,
        process_agent_loop (applyOp Op.clear_memory st) userInput summary outcome
          = (applyOp Op.clear_memory st, [quotaMessage])) := by
  refine ⟨rfl, rfl, ?_, ?_⟩
  · cases op with
    | start => exact le_refl _
    | clear_memory => exact le_refl _
    | stop_command => exact le_refl _
    | fileUpload n => exact le_refl _
    | turn i s o =>
      show st.usage ≤ (process_agent_loop st i s o).1.usage
      unfold process_agent_loop
      split
      · exact le_refl _
      · cases o with
        | cancelled => exact le_refl _
        | success t =>
          by_cases ht : t = "" <;> simp [ht]
        | error m => simp
  · intro h userInput summary outcome
    have h' : 50000 < (applyOp Op.clear_memory st).usage := h
    simp [process_agent_loop, h']

/-- Witness for C10: a conversation at usage 60000 keeps usage 60000 after
clearing, gains no usage from a further turn attempt, and that turn is
refused with the quota message on the cleared state. -/
theorem C10_clear_keeps_quota_witness :
    (applyOp Op.clear_memory ⟨[userM], 60000⟩).usage = 60000
    ∧ 60000 ≤ (applyOp (Op.turn "hi" none (.success "ok")) ⟨[userM], 60000⟩).usage
    ∧ process_agent_loop (applyOp Op.clear_memory ⟨[userM], 60000⟩) "hi" none (.success "ok")
        = (applyOp Op.clear_memory ⟨[userM], 60000⟩, [quotaMessage]) := by
  have h := C10_clear_keeps_quota ⟨[userM], 60000⟩ (Op.turn "hi" none (.success "ok"))
  exact ⟨h.2.1, h.2.2.1, h.2.2.2 (by decide) "hi" none (.success "ok")⟩

